import Mathlib

/-!
Verification development for the language-client runtime (client.ts).

The definitions below are shallow embeddings of the functions of
src/client/src/common/client.ts.  Handler maps (JS `Map`) are modelled as
association lists with insertion-order semantics: `mapSet` replaces the
value in place when the key is present and appends otherwise, `mapDelete`
removes the key.  Timestamps are naturals (milliseconds).  Promises are
modelled by explicit outcome values, asynchronous interleavings by explicit
event sequences.
-/

/-- `ErrorAction` from the protocol layer (values used by `DefaultErrorHandler.error`). -/
inductive ErrorAction where
  | Continue
  | Shutdown
deriving DecidableEq, Repr

/-- `CloseAction` from the protocol layer (values used by `DefaultErrorHandler.closed`). -/
inductive CloseAction where
  | DoNotRestart
  | Restart
deriving DecidableEq, Repr

/-- Result of `DefaultErrorHandler.closed`: an action with an optional user-visible message. -/
structure CloseHandlerResult where
  action : CloseAction
  message : Option String
deriving DecidableEq, Repr

/-- `DefaultErrorHandler.error` (client.ts:385-390).  The JS guard is
`if (count && count <= 3)`: `count` must be defined and truthy (nonzero).
`none` models an `undefined` count. -/
def defaultErrorHandlerError (count : Option Nat) : ErrorAction :=
  match count with
  | some c => if c ≠ 0 ∧ c ≤ 3 then ErrorAction.Continue else ErrorAction.Shutdown
  | none => ErrorAction.Shutdown

/-- `DefaultErrorHandler.closed` (client.ts:392-405), acting on the `restarts`
timestamp list.  Pushes the current time, then decides on restart based on the
recorded count and the span between oldest and newest timestamp. -/
def defaultErrorHandlerClosed (restarts : List Nat) (maxRestartCount : Nat) (now : Nat) :
    List Nat × CloseHandlerResult :=
  let r := restarts ++ [now]
  if r.length ≤ maxRestartCount then
    (r, ⟨CloseAction.Restart, none⟩)
  else
    let diff := r.getLastD 0 - r.headD 0
    if diff ≤ 3 * 60 * 1000 then
      (r, ⟨CloseAction.DoNotRestart,
        some "The server crashed repeatedly in the last 3 minutes. The server will not be restarted."⟩)
    else
      (r.tail, ⟨CloseAction.Restart, none⟩)

/-- Folds a sequence of close events (timestamps) through the handler,
collecting the action of each close.  The handler state (`restarts`) threads
through exactly as the mutable field does in `DefaultErrorHandler`. -/
def runCloses (maxRestartCount : Nat) (ts : List Nat) : List Nat × List CloseAction :=
  ts.foldl
    (fun acc t =>
      let step := defaultErrorHandlerClosed acc.1 maxRestartCount t
      (step.1, acc.2 ++ [step.2.action]))
    ([], [])

/-! ### doInitialize: position-encoding check and text-document-sync resolution -/

/-- Internal client lifecycle states (client.ts:408-417). -/
inductive ClientState where
  | Initial
  | Starting
  | StartFailed
  | Running
  | Suspending
  | Suspended
  | Stopping
  | Stopped
deriving DecidableEq, Repr

/-- `SaveOptions` of the protocol: optional `includeText` flag. -/
structure SaveOptions where
  includeText : Option Bool
deriving DecidableEq, Repr

/-- `TextDocumentSyncOptions`: the resolved (or server-provided) sync options. -/
structure TextDocumentSyncOptions where
  openClose : Option Bool
  change : Option Nat
  save : Option SaveOptions
deriving DecidableEq, Repr

/-- Shape of `result.capabilities.textDocumentSync` on the wire: absent, null,
a bare numeric `TextDocumentSyncKind`, or a full options object. -/
inductive ServerTextDocumentSync where
  | undef
  | nullv
  | numeric (k : Nat)
  | options (o : TextDocumentSyncOptions)
deriving DecidableEq, Repr

/-- The slice of `result.capabilities` that `doInitialize` inspects. -/
structure ServerCapabilitiesM where
  positionEncoding : Option String
  textDocumentSync : ServerTextDocumentSync
deriving DecidableEq, Repr

/-- Resolution of `textDocumentSync` in `doInitialize` (client.ts:1126-1145):
a bare numeric kind `0` (None) resolves to closed/no-save options, any other
numeric kind resolves to `openClose: true`, that kind, and
`save: (includeText := false)`; a full object passes through; absent or null
stays unresolved. -/
def resolveTextDocumentSync : ServerTextDocumentSync → Option TextDocumentSyncOptions
  | ServerTextDocumentSync.numeric k =>
      if k = 0 then
        some ⟨some false, some 0, none⟩
      else
        some ⟨some true, some k, some ⟨some false⟩⟩
  | ServerTextDocumentSync.options o => some o
  | ServerTextDocumentSync.undef => none
  | ServerTextDocumentSync.nullv => none

/-- `doInitialize` response processing (client.ts:1116-1146): reject with an
error when the reported position encoding is defined and differs from
`utf-16` (before the state is touched); otherwise set the state to `Running`
and resolve the text-document-sync options. -/
def doInitializeResolve (st : ClientState) (caps : ServerCapabilitiesM) :
    ClientState × Except String (Option TextDocumentSyncOptions) :=
  match caps.positionEncoding with
  | some enc =>
      if enc ≠ "utf-16" then
        (st, Except.error "Unsupported position encoding received from server")
      else
        (ClientState.Running, Except.ok (resolveTextDocumentSync caps.textDocumentSync))
  | none => (ClientState.Running, Except.ok (resolveTextDocumentSync caps.textDocumentSync))

/-! ### Handler registry: onRequest / onNotification before start, and binding -/

/-- Handler tables (`Map<string, handler>`) as insertion-ordered association
lists; handler identities are abstracted to naturals. -/
abbrev HMap := List (String × Nat)

/-- `Map.set`: replace in place when the key is present, append otherwise. -/
def mapSet (m : HMap) (k : String) (v : Nat) : HMap :=
  if m.any (fun p => p.1 = k) then
    m.map (fun p => if p.1 = k then (k, v) else p)
  else
    m ++ [(k, v)]

/-- `Map.delete`. -/
def mapDelete (m : HMap) (k : String) : HMap :=
  m.filter (fun p => p.1 ≠ k)

/-- `Map.has`. -/
def mapHas (m : HMap) (k : String) : Bool :=
  m.any (fun p => p.1 = k)

/-- The handler bookkeeping of `BaseLanguageClient` relevant to request and
notification handlers: the registered maps, the pending maps, the disposable
maps, plus the list of methods actually bound on the live connection
(each `connection.onRequest` / `connection.onNotification` call appends). -/
structure ClientHandlers where
  requestHandlers : HMap
  pendingRequestHandlers : HMap
  requestDisposables : HMap
  notificationHandlers : HMap
  pendingNotificationHandlers : HMap
  notificationDisposables : HMap
  connRequestBound : List String
  connNotificationBound : List String
deriving DecidableEq, Repr

/-- Fresh client: all tables empty. -/
def initHandlers : ClientHandlers :=
  ⟨[], [], [], [], [], [], [], []⟩

/-- Application-level registration events issued before `start()` (no live
connection, so `activeConnection()` is `undefined`). -/
inductive RegEvent where
  | onRequestReg (m : String) (h : Nat)
  | onNotificationReg (m : String) (h : Nat)
  | disposeRequest (m : String)
  | disposeNotification (m : String)
deriving DecidableEq, Repr

/-- One pre-start registry event (client.ts:630-665 and 690-725, the
`connection === undefined` branches).  `onRequest` stores the handler in the
registered map and the pending map; disposing removes the registered entry,
the pending entry, and tears down a binding when one exists. -/
def applyRegEvent (s : ClientHandlers) : RegEvent → ClientHandlers
  | RegEvent.onRequestReg m h =>
      { s with
        requestHandlers := mapSet s.requestHandlers m h,
        pendingRequestHandlers := mapSet s.pendingRequestHandlers m h }
  | RegEvent.onNotificationReg m h =>
      { s with
        notificationHandlers := mapSet s.notificationHandlers m h,
        pendingNotificationHandlers := mapSet s.pendingNotificationHandlers m h }
  | RegEvent.disposeRequest m =>
      { s with
        requestHandlers := mapDelete s.requestHandlers m,
        pendingRequestHandlers := mapDelete s.pendingRequestHandlers m,
        requestDisposables := mapDelete s.requestDisposables m }
  | RegEvent.disposeNotification m =>
      { s with
        notificationHandlers := mapDelete s.notificationHandlers m,
        pendingNotificationHandlers := mapDelete s.pendingNotificationHandlers m,
        notificationDisposables := mapDelete s.notificationDisposables m }

/-- Applies a sequence of pre-start registry events. -/
def applyRegEvents (s : ClientHandlers) (evs : List RegEvent) : ClientHandlers :=
  evs.foldl applyRegEvent s

/-- The copy loop of `start()` for one kind (client.ts:952-968): every
registered entry is placed into the pending map unless already pending. -/
def mergeInto (handlers pending : HMap) : HMap :=
  handlers.foldl (fun p mh => if mapHas p mh.1 then p else mapSet p mh.1 mh.2) pending

/-- `start()` making all buffered handlers pending (client.ts:952-968). -/
def startMerge (s : ClientHandlers) : ClientHandlers :=
  { s with
    pendingNotificationHandlers := mergeInto s.notificationHandlers s.pendingNotificationHandlers,
    pendingRequestHandlers := mergeInto s.requestHandlers s.pendingRequestHandlers }

/-- The binding loops of `doInitialize` (client.ts:1157-1169): each pending
entry is bound onto the connection (recording a disposable and appending the
method to the connection's bound list), then the pending maps are cleared. -/
def bindPending (s : ClientHandlers) : ClientHandlers :=
  { s with
    notificationDisposables :=
      s.pendingNotificationHandlers.foldl (fun d mh => mapSet d mh.1 mh.2) s.notificationDisposables,
    connNotificationBound := s.connNotificationBound ++ s.pendingNotificationHandlers.map (fun p => p.1),
    pendingNotificationHandlers := [],
    requestDisposables :=
      s.pendingRequestHandlers.foldl (fun d mh => mapSet d mh.1 mh.2) s.requestDisposables,
    connRequestBound := s.connRequestBound ++ s.pendingRequestHandlers.map (fun p => p.1),
    pendingRequestHandlers := [] }

/-! ### Diagnostics queue -/

/-- The `busy` payload of `_diagnosticQueueState`: the document being
converted, the cancellation token of the in-flight conversion, and the raw
diagnostics batch being converted (payloads abstracted to naturals). -/
structure BusyInfo where
  document : String
  token : Nat
  diags : Nat
deriving DecidableEq, Repr

/-- The diagnostics queue state (client.ts:1325-1326) together with the
observable effects: `cancelled` records tokens on which `cancel()` was
called, `delivered` records the batches handed to the host
(`setDiagnostics`), `drainScheduled` records a pending
`triggerDiagnosticQueue` tick. -/
structure DiagQueueState where
  queue : HMap
  busy : Option BusyInfo
  nextToken : Nat
  cancelled : List Nat
  delivered : List (String × Nat)
  drainScheduled : Bool
deriving DecidableEq, Repr

/-- Initial diagnostics queue: idle and empty. -/
def initDiagState : DiagQueueState :=
  ⟨[], none, 0, [], [], false⟩

/-- `handleDiagnostics` (client.ts:1327-1338): when busy on the same document
key, cancel the in-flight token; overwrite the queued batch for the key;
schedule a drain. -/
def handleDiagnostics (s : DiagQueueState) (uri : String) (d : Nat) : DiagQueueState :=
  let s1 :=
    match s.busy with
    | some b => if b.document = uri then { s with cancelled := b.token :: s.cancelled } else s
    | none => s
  { s1 with queue := mapSet s1.queue uri d, drainScheduled := true }

/-- `workDiagnosticQueue` (client.ts:1344-1356, the synchronous part): a
scheduled drain tick runs; when busy it returns, otherwise it pops the first
queued entry, removes it, creates a fresh cancellation token and goes busy
converting that batch. -/
def workDiagnosticQueue (s : DiagQueueState) : DiagQueueState :=
  let s0 := { s with drainScheduled := false }
  if s0.busy.isSome then
    s0
  else
    match s0.queue with
    | [] => s0
    | (doc, d) :: rest =>
        { s0 with
          queue := rest,
          busy := some ⟨doc, s0.nextToken, d⟩,
          nextToken := s0.nextToken + 1 }

/-- Completion of the in-flight conversion (client.ts:1357-1370): the
converted result is delivered only when the token was not cancelled; in all
cases the queue returns to idle and a drain is re-triggered. -/
def completeConversion (s : DiagQueueState) : DiagQueueState :=
  match s.busy with
  | none => s
  | some b =>
      let s1 :=
        if b.token ∈ s.cancelled then s
        else { s with delivered := s.delivered ++ [(b.document, b.diags)] }
      { s1 with busy := none, drainScheduled := true }

/-! ### stop() -/

/-- Observable state of the connection object `stop()` operates on. -/
structure ConnRecord where
  ended : Bool
  disposed : Bool
deriving DecidableEq, Repr

/-- The fields of `BaseLanguageClient` that `stop()` touches.  `onStart` and
`onStop` record whether the corresponding promise references are set. -/
structure ClientStopView where
  state : ClientState
  onStart : Bool
  onStop : Bool
  connection : Option ConnRecord
  hasInitializeResult : Bool
  featuresDisposed : Bool
deriving DecidableEq, Repr

/-- Outcome of the race between the shutdown-exit handshake and the timeout
timer (client.ts:1238-1245), including the case that `shutdown()`/`exit()`
itself rejects. -/
inductive StopRace where
  | handshakeWon
  | timeoutWon
  | shutdownFailed (msg : String)
deriving DecidableEq, Repr

/-- Settlement of the promise returned by `stop()`. -/
inductive StopResult where
  | alreadyStopped
  | joinedPending
  | startRejected (msg : String)
  | resolved
  | rejected (msg : String)
deriving DecidableEq, Repr

/-- `BaseLanguageClient.stop` (client.ts:1220-1264) with `$start`
(client.ts:1384-1393) inlined.  `startOk` tells whether the awaited
`start()` succeeds in producing a connection (transport creation and the
handshake are external).  Returns the final client view, the final state of
the connection object `stop()` held (when it got one), and the settlement of
the returned promise.  The `finally` clause always resets the state to
`Stopped` and clears the start/stop/connection references. -/
def stopRun (c : ClientStopView) (startOk : Bool) (race : StopRace) :
    ClientStopView × Option ConnRecord × StopResult :=
  if c.state = ClientState.Stopped then
    (c, none, StopResult.alreadyStopped)
  else if c.state = ClientState.Stopping ∧ c.onStop then
    (c, none, StopResult.joinedPending)
  else if c.state = ClientState.StartFailed then
    (c, none, StopResult.startRejected "Previous start failed. Cannot restart server.")
  else if ¬ startOk then
    ({ c with state := ClientState.StartFailed, onStart := true }, none,
      StopResult.startRejected "Starting server failed")
  else
    let conn : ConnRecord := c.connection.getD ⟨false, false⟩
    let connFinal : ConnRecord :=
      match race with
      | StopRace.handshakeWon => ⟨true, true⟩
      | StopRace.timeoutWon => conn
      | StopRace.shutdownFailed _ => conn
    let result : StopResult :=
      match race with
      | StopRace.handshakeWon => StopResult.resolved
      | StopRace.timeoutWon => StopResult.rejected "Stopping the server timed out"
      | StopRace.shutdownFailed msg => StopResult.rejected msg
    ({ state := ClientState.Stopped,
       onStart := false,
       onStop := false,
       connection := none,
       hasInitializeResult := false,
       featuresDisposed := true },
     some connFinal, result)

/-! ### handleApplyWorkspaceEdit -/

/-- `OptionalVersionedTextDocumentIdentifier`: a document reference carrying
an optional version (`null` modelled as `none`). -/
structure VersionedTextDocumentRef where
  uri : String
  version : Option Int
deriving DecidableEq, Repr

/-- One entry of `workspaceEdit.documentChanges`: a `TextDocumentEdit`
(identified by its versioned document reference) or another resource
operation. -/
inductive DocumentChange where
  | textDocumentEdit (textDocument : VersionedTextDocumentRef)
  | otherOp
deriving DecidableEq, Repr

/-- The slice of `ApplyWorkspaceEditParams` that the staleness check reads. -/
structure ApplyWorkspaceEditParamsM where
  documentChanges : Option (List DocumentChange)
deriving DecidableEq, Repr

/-- The host document store: open documents with their versions.  The code
builds a `Map` by iterating `Workspace.textDocuments`, so a duplicated uri
keeps the last entry. -/
def openDocVersion (docs : List (String × Int)) (uri : String) : Option Int :=
  ((docs.filter (fun p => p.1 = uri)).getLast?).map (fun p => p.2)

/-- The per-change staleness test of `handleApplyWorkspaceEdit`
(client.ts:1736-1743): a `TextDocumentEdit` whose version is truthy
(`change.textDocument.version`, so nonzero and not null) and `>= 0`, whose
document is open at a different version, is a mismatch. -/
def changeMismatch (docs : List (String × Int)) : DocumentChange → Bool
  | DocumentChange.textDocumentEdit td =>
      match td.version with
      | some v =>
          if v ≠ 0 ∧ 0 ≤ v then
            match openDocVersion docs td.uri with
            | some dv => dv ≠ v
            | none => false
          else false
      | none => false
  | DocumentChange.otherOp => false

/-- `handleApplyWorkspaceEdit` (client.ts:1721-1750): when any document
change is a stale `TextDocumentEdit` the request resolves to
`applied: false` without invoking `Workspace.applyEdit`; otherwise the host
capability is invoked and its verdict returned.  `hostResult` is the
external host verdict; the second component records whether the host
capability was invoked. -/
def handleApplyWorkspaceEdit (docs : List (String × Int))
    (params : ApplyWorkspaceEditParamsM) (hostResult : Bool) : Bool × Bool :=
  let versionMismatch :=
    match params.documentChanges with
    | some changes => changes.any (changeMismatch docs)
    | none => false
  if versionMismatch then (false, false) else (hostResult, true)

/-! ### handleRegistrationRequest -/

/-- One entry of `RegistrationParams.registrations`. -/
structure RegistrationM where
  method : String
  id : String
deriving DecidableEq, Repr

/-- `handleRegistrationRequest` (client.ts:1687-1708): registrations are
processed in order; an entry whose method has no dynamic feature rejects the
whole request immediately, leaving earlier registrations applied.
`dynamicFeatures` is the key set of `_dynamicFeatures`; the first component
collects the registrations for which `feature.register` was invoked, the
second is `true` when the returned promise fulfills. -/
def handleRegistrationRequest (dynamicFeatures : List String) :
    List RegistrationM → List RegistrationM × Bool
  | [] => ([], true)
  | r :: rest =>
      if r.method ∈ dynamicFeatures then
        let res := handleRegistrationRequest dynamicFeatures rest
        (r :: res.1, res.2)
      else
        ([], false)

/-! ### handleFailedRequest -/

/-- `LSPErrorCodes.ContentModified`. -/
def ContentModifiedCode : Int := -32801

/-- `LSPErrorCodes.RequestCancelled`. -/
def RequestCancelledCode : Int := -32800

/-- `LSPErrorCodes.ServerCancelled`. -/
def ServerCancelledCode : Int := -32802

/-- The error argument of `handleFailedRequest`: a `ResponseError` with its
code and optional attached data (abstracted to a natural), or any other
error. -/
inductive FailedRequestError where
  | responseError (code : Int) (data : Option Nat)
  | otherError
deriving DecidableEq, Repr

/-- What `handleFailedRequest` does: return the caller-supplied default,
throw a cancellation error (with or without attached data), or log the
failure as an error and rethrow. -/
inductive FailedRequestOutcome where
  | returnDefault
  | throwLSPCancellation (data : Nat)
  | throwCancellation
  | logErrorAndRethrow
deriving DecidableEq, Repr

/-- `BaseLanguageClient.RequestsToCancelOnContentModified`
(client.ts:1752-1756): the set of methods retried (cancelled) rather than
defaulted on a content-modified response. -/
def RequestsToCancelOnContentModified : List String :=
  ["textDocument/semanticTokens/full",
   "textDocument/semanticTokens/range",
   "textDocument/semanticTokens/full/delta"]

/-- `handleFailedRequest` (client.ts:1757-1780).  `token` is the local
cancellation token: `none` when undefined, otherwise
`some isCancellationRequested`. -/
def handleFailedRequest (method : String) (token : Option Bool)
    (err : FailedRequestError) : FailedRequestOutcome :=
  match err with
  | FailedRequestError.responseError code data =>
      if code = RequestCancelledCode ∨ code = ServerCancelledCode then
        if token = some true then
          FailedRequestOutcome.returnDefault
        else
          match data with
          | some d => FailedRequestOutcome.throwLSPCancellation d
          | none => FailedRequestOutcome.throwCancellation
      else if code = ContentModifiedCode then
        if method ∈ RequestsToCancelOnContentModified then
          FailedRequestOutcome.throwCancellation
        else
          FailedRequestOutcome.returnDefault
      else
        FailedRequestOutcome.logErrorAndRethrow
  | FailedRequestError.otherError => FailedRequestOutcome.logErrorAndRethrow

/-! ## Theorems -/

/-- Keys of `(l ++ [a])`: its last default is `a`. -/
lemma getLastD_append_singleton (l : List Nat) (a d : Nat) :
    (l ++ [a]).getLastD d = a := by
  induction l with
  | nil => rfl
  | cons x xs ih =>
      cases xs with
      | nil => rfl
      | cons y ys => simpa using ih

/-- C7: a bare numeric `textDocumentSync` kind `2` resolves to
`openClose: true`, `change: 2`, `save.includeText: false`; a bare numeric
kind `0` resolves to `openClose: false`, `change: 0`, no save options
(for any prior client state, and whether the server reports no position
encoding or `utf-16`). -/
theorem C7_textDocumentSync_numeric_resolution :
    ∀ st : ClientState,
      doInitializeResolve st ⟨none, ServerTextDocumentSync.numeric 2⟩ =
        (ClientState.Running,
          Except.ok (some ⟨some true, some 2, some ⟨some false⟩⟩)) ∧
      doInitializeResolve st ⟨some "utf-16", ServerTextDocumentSync.numeric 2⟩ =
        (ClientState.Running,
          Except.ok (some ⟨some true, some 2, some ⟨some false⟩⟩)) ∧
      doInitializeResolve st ⟨none, ServerTextDocumentSync.numeric 0⟩ =
        (ClientState.Running, Except.ok (some ⟨some false, some 0, none⟩)) ∧
      doInitializeResolve st ⟨some "utf-16", ServerTextDocumentSync.numeric 0⟩ =
        (ClientState.Running, Except.ok (some ⟨some false, some 0, none⟩)) := by
  intro st
  refine ⟨rfl, ?_, rfl, ?_⟩ <;>
    simp [doInitializeResolve, resolveTextDocumentSync]

/-- C6: a defined position encoding other than `utf-16` makes `doInitialize`
fail with an error, the state is left untouched (so a starting client never
reaches `Running` on such a response). -/
theorem C6_unsupported_position_encoding (st : ClientState) (caps : ServerCapabilitiesM)
    (enc : String) (henc : caps.positionEncoding = some enc) (hne : enc ≠ "utf-16") :
    (doInitializeResolve st caps).1 = st ∧
    (doInitializeResolve st caps).2 =
      Except.error "Unsupported position encoding received from server" ∧
    (st ≠ ClientState.Running → (doInitializeResolve st caps).1 ≠ ClientState.Running) := by
  have hres : doInitializeResolve st caps =
      (st, Except.error "Unsupported position encoding received from server") := by
    unfold doInitializeResolve
    rw [henc]
    simp [hne]
  refine ⟨by rw [hres], by rw [hres], ?_⟩
  intro hst
  rw [hres]
  exact hst

/-- C6 witness: a server reporting `utf-8` makes the handshake fail with the
client still `Starting`. -/
theorem C6_unsupported_position_encoding_witness :
    (doInitializeResolve ClientState.Starting
        ⟨some "utf-8", ServerTextDocumentSync.undef⟩).1 = ClientState.Starting ∧
    (doInitializeResolve ClientState.Starting
        ⟨some "utf-8", ServerTextDocumentSync.undef⟩).2 =
      Except.error "Unsupported position encoding received from server" ∧
    (ClientState.Starting ≠ ClientState.Running →
      (doInitializeResolve ClientState.Starting
        ⟨some "utf-8", ServerTextDocumentSync.undef⟩).1 ≠ ClientState.Running) :=
  C6_unsupported_position_encoding ClientState.Starting
    ⟨some "utf-8", ServerTextDocumentSync.undef⟩ "utf-8" rfl (by decide)

/-- C8 counterexample: the claim says any `count ≤ 3` yields `Continue`, but
at `count = 0` (which satisfies `0 ≤ 3`) the truthiness guard
`if (count && count <= 3)` fails and the handler returns `Shutdown`. -/
theorem C8_count_zero_counterexample :
    (0 : Nat) ≤ 3 ∧ defaultErrorHandlerError (some 0) ≠ ErrorAction.Continue := by
  decide

/-- C8 amended: `Continue` exactly for a defined, nonzero `count ≤ 3`;
`Shutdown` for `count = 0`, `count > 3`, or an undefined count. -/
theorem C8_error_threshold_amended (c : Nat) :
    (1 ≤ c ∧ c ≤ 3 → defaultErrorHandlerError (some c) = ErrorAction.Continue) ∧
    (c = 0 ∨ 3 < c → defaultErrorHandlerError (some c) = ErrorAction.Shutdown) ∧
    defaultErrorHandlerError none = ErrorAction.Shutdown := by
  refine ⟨?_, ?_, rfl⟩
  · rintro ⟨h1, h2⟩
    have hc : c ≠ 0 ∧ c ≤ 3 := ⟨by omega, h2⟩
    simp [defaultErrorHandlerError, hc]
  · intro h
    have hc : ¬ (c ≠ 0 ∧ c ≤ 3) := by omega
    simp [defaultErrorHandlerError, hc]

/-- C8 witness: three consecutive errors continue, a fourth shuts down. -/
theorem C8_error_threshold_witness :
    defaultErrorHandlerError (some 3) = ErrorAction.Continue ∧
    defaultErrorHandlerError (some 4) = ErrorAction.Shutdown :=
  ⟨(C8_error_threshold_amended 3).1 (by decide),
   (C8_error_threshold_amended 4).2.1 (Or.inr (by decide))⟩

/-- C4: within the max-restart count a close restarts; beyond it, a span of
at most 3 minutes between oldest and newest close refuses the restart with a
user-visible message, a larger span evicts the oldest timestamp and
restarts.  Concretely, with `maxRestartCount = 2`, closes at `t`, `t+1s`,
`t+2s`, `t+240s` yield `Restart, Restart, DoNotRestart, Restart`. -/
theorem C4_close_restart_window (rs : List Nat) (maxR : Nat) (now t : Nat) :
    ((rs ++ [now]).length ≤ maxR →
      defaultErrorHandlerClosed rs maxR now = (rs ++ [now], ⟨CloseAction.Restart, none⟩)) ∧
    (maxR < (rs ++ [now]).length → now - (rs ++ [now]).headD 0 ≤ 3 * 60 * 1000 →
      (defaultErrorHandlerClosed rs maxR now).2.action = CloseAction.DoNotRestart ∧
      (defaultErrorHandlerClosed rs maxR now).2.message.isSome = true ∧
      (defaultErrorHandlerClosed rs maxR now).1 = rs ++ [now]) ∧
    (maxR < (rs ++ [now]).length → 3 * 60 * 1000 < now - (rs ++ [now]).headD 0 →
      defaultErrorHandlerClosed rs maxR now =
        ((rs ++ [now]).tail, ⟨CloseAction.Restart, none⟩)) ∧
    (runCloses 2 [t, t + 1000, t + 2000, t + 240000]).2 =
      [CloseAction.Restart, CloseAction.Restart, CloseAction.DoNotRestart,
       CloseAction.Restart] := by
  refine ⟨?_, ?_, ?_, ?_⟩
  · intro h
    simp only [defaultErrorHandlerClosed]
    rw [if_pos h]
  · intro h hd
    have h' : ¬ (rs ++ [now]).length ≤ maxR := by omega
    have hd2 : (rs ++ [now]).getLastD 0 - (rs ++ [now]).headD 0 ≤ 3 * 60 * 1000 := by
      rw [getLastD_append_singleton]; exact hd
    simp only [defaultErrorHandlerClosed]
    rw [if_neg h', if_pos hd2]
    exact ⟨rfl, rfl, rfl⟩
  · intro h hd
    have h' : ¬ (rs ++ [now]).length ≤ maxR := by omega
    have hd2 : ¬ (rs ++ [now]).getLastD 0 - (rs ++ [now]).headD 0 ≤ 3 * 60 * 1000 := by
      rw [getLastD_append_singleton]; omega
    simp only [defaultErrorHandlerClosed]
    rw [if_neg h', if_neg hd2]
  · have s1 : defaultErrorHandlerClosed [] 2 t = ([t], ⟨CloseAction.Restart, none⟩) := by
      simp only [defaultErrorHandlerClosed]
      rw [if_pos (by simp)]
      simp
    have s2 : defaultErrorHandlerClosed [t] 2 (t + 1000) =
        ([t, t + 1000], ⟨CloseAction.Restart, none⟩) := by
      simp only [defaultErrorHandlerClosed]
      rw [if_pos (by simp)]
      simp
    have s3 : (defaultErrorHandlerClosed [t, t + 1000] 2 (t + 2000)).1 =
          [t, t + 1000, t + 2000] ∧
        (defaultErrorHandlerClosed [t, t + 1000] 2 (t + 2000)).2.action =
          CloseAction.DoNotRestart := by
      have hc : ¬ ([t, t + 1000] ++ [t + 2000]).length ≤ 2 := by simp
      have hd3 : ([t, t + 1000] ++ [t + 2000]).getLastD 0 -
          ([t, t + 1000] ++ [t + 2000]).headD 0 ≤ 3 * 60 * 1000 := by
        rw [getLastD_append_singleton]
        simp only [List.cons_append, List.headD_cons]
        omega
      simp only [defaultErrorHandlerClosed]
      rw [if_neg hc, if_pos hd3]
      simp
    have s4 : (defaultErrorHandlerClosed [t, t + 1000, t + 2000] 2 (t + 240000)).2.action =
        CloseAction.Restart := by
      have hc : ¬ ([t, t + 1000, t + 2000] ++ [t + 240000]).length ≤ 2 := by simp
      have hd4 : ¬ ([t, t + 1000, t + 2000] ++ [t + 240000]).getLastD 0 -
          ([t, t + 1000, t + 2000] ++ [t + 240000]).headD 0 ≤ 3 * 60 * 1000 := by
        rw [getLastD_append_singleton]
        simp only [List.cons_append, List.headD_cons]
        omega
      simp only [defaultErrorHandlerClosed]
      rw [if_neg hc, if_neg hd4]
    simp only [runCloses, List.foldl_cons, List.foldl_nil, s1, s2]
    rw [show (defaultErrorHandlerClosed [t, t + 1000] 2 (t + 2000)).1 =
        [t, t + 1000, t + 2000] from s3.1]
    simp only [s3.2, s4, List.nil_append, List.cons_append, List.append_nil]

/-- C4 witness: each branch of the close handler at concrete inputs. -/
theorem C4_close_restart_window_witness :
    defaultErrorHandlerClosed [] 2 5 = ([5], ⟨CloseAction.Restart, none⟩) ∧
    (defaultErrorHandlerClosed [0, 1000] 2 2000).2.action = CloseAction.DoNotRestart ∧
    defaultErrorHandlerClosed [0, 1000] 2 200000 =
      ([1000, 200000], ⟨CloseAction.Restart, none⟩) :=
  ⟨(C4_close_restart_window [] 2 5 0).1 (by decide),
   ((C4_close_restart_window [0, 1000] 2 2000 0).2.1 (by decide) (by decide)).1,
   (C4_close_restart_window [0, 1000] 2 200000 0).2.2.1 (by decide) (by decide)⟩

/-- C9: request-cancelled / server-cancelled responses yield the default
value when the local token is already cancelled and a thrown cancellation
(carrying attached data when present) otherwise; content-modified responses
throw a cancellation exactly for methods in the retry set and yield the
default otherwise; none of these cases logs the failure as an error. -/
theorem C9_handle_failed_request (method : String) (token : Option Bool)
    (code : Int) (data : Option Nat) :
    ((code = RequestCancelledCode ∨ code = ServerCancelledCode) →
      (token = some true →
        handleFailedRequest method token (FailedRequestError.responseError code data) =
          FailedRequestOutcome.returnDefault) ∧
      (token ≠ some true →
        (data = none →
          handleFailedRequest method token (FailedRequestError.responseError code data) =
            FailedRequestOutcome.throwCancellation) ∧
        (∀ d, data = some d →
          handleFailedRequest method token (FailedRequestError.responseError code data) =
            FailedRequestOutcome.throwLSPCancellation d)) ∧
      handleFailedRequest method token (FailedRequestError.responseError code data) ≠
        FailedRequestOutcome.logErrorAndRethrow) ∧
    (code = ContentModifiedCode →
      (method ∈ RequestsToCancelOnContentModified →
        handleFailedRequest method token (FailedRequestError.responseError code data) =
          FailedRequestOutcome.throwCancellation) ∧
      (method ∉ RequestsToCancelOnContentModified →
        handleFailedRequest method token (FailedRequestError.responseError code data) =
          FailedRequestOutcome.returnDefault) ∧
      handleFailedRequest method token (FailedRequestError.responseError code data) ≠
        FailedRequestOutcome.logErrorAndRethrow) := by
  constructor
  · intro hcode
    simp only [handleFailedRequest, if_pos hcode]
    refine ⟨?_, ?_, ?_⟩
    · intro ht
      rw [if_pos ht]
    · intro ht
      rw [if_neg ht]
      constructor
      · rintro rfl
        rfl
      · rintro d rfl
        rfl
    · by_cases ht : token = some true
      · rw [if_pos ht]
        exact fun h => FailedRequestOutcome.noConfusion h
      · rw [if_neg ht]
        cases data <;> exact fun h => FailedRequestOutcome.noConfusion h
  · rintro rfl
    have hcm :
        handleFailedRequest method token
            (FailedRequestError.responseError ContentModifiedCode data) =
          if method ∈ RequestsToCancelOnContentModified then
            FailedRequestOutcome.throwCancellation
          else
            FailedRequestOutcome.returnDefault := by
      simp [handleFailedRequest, RequestCancelledCode, ServerCancelledCode,
        ContentModifiedCode]
    refine ⟨?_, ?_, ?_⟩
    · intro hm
      rw [hcm]
      simp [hm]
    · intro hm
      rw [hcm]
      simp [hm]
    · rw [hcm]
      by_cases hm : method ∈ RequestsToCancelOnContentModified
      · simp [hm]
      · simp [hm]

/-- C9 witness: the four outcomes at concrete inputs. -/
theorem C9_handle_failed_request_witness :
    handleFailedRequest "textDocument/hover" (some true)
      (FailedRequestError.responseError RequestCancelledCode none) =
        FailedRequestOutcome.returnDefault ∧
    handleFailedRequest "textDocument/hover" (some false)
      (FailedRequestError.responseError ServerCancelledCode (some 7)) =
        FailedRequestOutcome.throwLSPCancellation 7 ∧
    handleFailedRequest "textDocument/semanticTokens/full" none
      (FailedRequestError.responseError ContentModifiedCode none) =
        FailedRequestOutcome.throwCancellation ∧
    handleFailedRequest "textDocument/hover" none
      (FailedRequestError.responseError ContentModifiedCode none) =
        FailedRequestOutcome.returnDefault :=
  ⟨((C9_handle_failed_request "textDocument/hover" (some true)
      RequestCancelledCode none).1 (Or.inl rfl)).1 rfl,
   (((C9_handle_failed_request "textDocument/hover" (some false)
      ServerCancelledCode (some 7)).1 (Or.inr rfl)).2.1 (by decide)).2 7 rfl,
   ((C9_handle_failed_request "textDocument/semanticTokens/full" none
      ContentModifiedCode none).2 rfl).1 (by decide),
   ((C9_handle_failed_request "textDocument/hover" none
      ContentModifiedCode none).2 rfl).2.1 (by decide)⟩

/-- C10: a registration batch containing a method with no dynamic feature is
rejected, but the registrations strictly before the first unknown method
have already been applied and are not rolled back, while the rest are not
applied. -/
theorem C10_registration_batch_not_atomic (feats : List String)
    (regs : List RegistrationM) (h : ∃ r ∈ regs, r.method ∉ feats) :
    (handleRegistrationRequest feats regs).2 = false ∧
    (handleRegistrationRequest feats regs).1 =
      regs.takeWhile (fun r => decide (r.method ∈ feats)) := by
  induction regs with
  | nil =>
      rcases h with ⟨r, hr, _⟩
      cases hr
  | cons r rest ih =>
      by_cases hm : r.method ∈ feats
      · have hex : ∃ x ∈ rest, x.method ∉ feats := by
          rcases h with ⟨x, hx, hxm⟩
          rcases List.mem_cons.mp hx with rfl | hx'
          · exact absurd hm hxm
          · exact ⟨x, hx', hxm⟩
        have hrec := ih hex
        simp only [handleRegistrationRequest, if_pos hm]
        rw [List.takeWhile_cons]
        simp [hm, hrec.1, hrec.2]
      · simp only [handleRegistrationRequest, if_neg hm]
        rw [List.takeWhile_cons]
        simp [hm]

/-- C10 witness: a batch with a known, an unknown, then another known method
rejects with exactly the first registration applied. -/
theorem C10_registration_batch_not_atomic_witness :
    (handleRegistrationRequest ["a"] [⟨"a", "1"⟩, ⟨"b", "2"⟩, ⟨"a", "3"⟩]).2 = false ∧
    (handleRegistrationRequest ["a"] [⟨"a", "1"⟩, ⟨"b", "2"⟩, ⟨"a", "3"⟩]).1 =
      ([⟨"a", "1"⟩, ⟨"b", "2"⟩, ⟨"a", "3"⟩] : List RegistrationM).takeWhile
        (fun r => decide (r.method ∈ ["a"])) :=
  C10_registration_batch_not_atomic ["a"] [⟨"a", "1"⟩, ⟨"b", "2"⟩, ⟨"a", "3"⟩]
    ⟨⟨"b", "2"⟩, by decide, by decide⟩

/-- C3 counterexample: an edit referencing version `v = 0` of a document
open at version `v' = 1` (so `v' ≠ v` and `v' ≥ 0`) is NOT refused — the
truthiness guard `change.textDocument.version &&` skips version `0`, the
host apply capability is invoked and the edit applied. -/
theorem C3_version_zero_counterexample :
    (0 : Int) ≤ 1 ∧ (1 : Int) ≠ 0 ∧
    handleApplyWorkspaceEdit [("file:///a.txt", 1)]
      ⟨some [DocumentChange.textDocumentEdit ⟨"file:///a.txt", some 0⟩]⟩ true =
      (true, true) := by
  refine ⟨by decide, by decide, ?_⟩
  rfl

/-- C3 amended: an apply-workspace-edit request whose document-change list
contains a `TextDocumentEdit` referencing a truthy version `v ≥ 1` of a
document currently open at version `v' ≠ v` resolves to `applied: false`
without invoking the host apply capability. -/
theorem C3_stale_edit_refused_amended (docs : List (String × Int))
    (changes : List DocumentChange) (td : VersionedTextDocumentRef)
    (v v' : Int) (hostResult : Bool)
    (hmem : DocumentChange.textDocumentEdit td ∈ changes)
    (hv : td.version = some v) (hv1 : 1 ≤ v)
    (hopen : openDocVersion docs td.uri = some v') (_hv0 : 0 ≤ v') (hne : v' ≠ v) :
    handleApplyWorkspaceEdit docs ⟨some changes⟩ hostResult = (false, false) := by
  have hcond : v ≠ 0 ∧ 0 ≤ v := ⟨by omega, by omega⟩
  have hmis : changeMismatch docs (DocumentChange.textDocumentEdit td) = true := by
    simp only [changeMismatch, hv, hopen, if_pos hcond]
    simp [hne]
  have hany : changes.any (changeMismatch docs) = true :=
    List.any_eq_true.mpr ⟨_, hmem, hmis⟩
  simp only [handleApplyWorkspaceEdit, hany]
  rfl

/-- C3 witness: an edit at version 3 against a document open at version 5 is
refused without invoking the host. -/
theorem C3_stale_edit_refused_witness :
    handleApplyWorkspaceEdit [("file:///a.txt", 5)]
      ⟨some [DocumentChange.textDocumentEdit ⟨"file:///a.txt", some 3⟩]⟩ true =
      (false, false) :=
  C3_stale_edit_refused_amended [("file:///a.txt", 5)]
    [DocumentChange.textDocumentEdit ⟨"file:///a.txt", some 3⟩]
    ⟨"file:///a.txt", some 3⟩ 3 5 true (by simp) rfl (by decide) (by decide)
    (by decide) (by decide)

/-- C5 counterexample: a client in `StartFailed` state is not `Stopped`, yet
`stop()` rejects inside the preparatory `$start()` call, the state stays
`StartFailed` and the start-promise reference is not cleared — the claim
that every `stop()` on a non-stopped client ends with state `Stopped` and
cleared references fails on this path. -/
theorem C5_startfailed_counterexample :
    (ClientStopView.mk ClientState.StartFailed true false none false false).state ≠
      ClientState.Stopped ∧
    (stopRun ⟨ClientState.StartFailed, true, false, none, false, false⟩ true
        StopRace.handshakeWon).1.state = ClientState.StartFailed ∧
    (stopRun ⟨ClientState.StartFailed, true, false, none, false, false⟩ true
        StopRace.handshakeWon).1.onStart = true ∧
    (stopRun ⟨ClientState.StartFailed, true, false, none, false, false⟩ true
        StopRace.handshakeWon).2.2 =
      StopResult.startRejected "Previous start failed. Cannot restart server." := by
  refine ⟨by decide, ?_, ?_, ?_⟩ <;> rfl

/-- C5 amended: for a client that is not `Stopped`, not already joining a
pending stop, and not in `StartFailed` (so the preparatory `$start()`
succeeds), every outcome of the shutdown race ends with state `Stopped` and
the start/stop/connection references cleared; the handshake winning resolves
the promise with the connection ended and disposed, the timeout winning or
the handshake failing rejects it. -/
theorem C5_stop_always_stopped_amended (c : ClientStopView) (race : StopRace)
    (h1 : c.state ≠ ClientState.Stopped)
    (h2 : ¬ (c.state = ClientState.Stopping ∧ c.onStop))
    (h3 : c.state ≠ ClientState.StartFailed) :
    (stopRun c true race).1.state = ClientState.Stopped ∧
    (stopRun c true race).1.onStart = false ∧
    (stopRun c true race).1.onStop = false ∧
    (stopRun c true race).1.connection = none ∧
    (race = StopRace.handshakeWon →
      (stopRun c true race).2.2 = StopResult.resolved ∧
      (stopRun c true race).2.1 = some ⟨true, true⟩) ∧
    (race = StopRace.timeoutWon →
      (stopRun c true race).2.2 = StopResult.rejected "Stopping the server timed out") ∧
    (∀ msg, race = StopRace.shutdownFailed msg →
      (stopRun c true race).2.2 = StopResult.rejected msg) := by
  have hrun : stopRun c true race =
      ({ state := ClientState.Stopped, onStart := false, onStop := false,
         connection := none, hasInitializeResult := false, featuresDisposed := true },
       some (match race with
             | StopRace.handshakeWon => ⟨true, true⟩
             | StopRace.timeoutWon => c.connection.getD ⟨false, false⟩
             | StopRace.shutdownFailed _ => c.connection.getD ⟨false, false⟩),
       match race with
       | StopRace.handshakeWon => StopResult.resolved
       | StopRace.timeoutWon => StopResult.rejected "Stopping the server timed out"
       | StopRace.shutdownFailed msg => StopResult.rejected msg) := by
    simp only [stopRun, if_neg h1, if_neg h2, if_neg h3]
    simp
  rw [hrun]
  refine ⟨rfl, rfl, rfl, rfl, ?_, ?_, ?_⟩
  · rintro rfl
    exact ⟨rfl, rfl⟩
  · rintro rfl
    rfl
  · rintro msg rfl
    rfl

/-- C5 witness: a running client stopping with the handshake winning the
race ends `Stopped` with cleared references and a disposed connection. -/
theorem C5_stop_always_stopped_witness :
    (stopRun ⟨ClientState.Running, true, false, some ⟨false, false⟩, true, false⟩
        true StopRace.handshakeWon).1.state = ClientState.Stopped ∧
    (stopRun ⟨ClientState.Running, true, false, some ⟨false, false⟩, true, false⟩
        true StopRace.handshakeWon).1.onStart = false ∧
    (stopRun ⟨ClientState.Running, true, false, some ⟨false, false⟩, true, false⟩
        true StopRace.handshakeWon).1.onStop = false ∧
    (stopRun ⟨ClientState.Running, true, false, some ⟨false, false⟩, true, false⟩
        true StopRace.handshakeWon).1.connection = none ∧
    (StopRace.handshakeWon = StopRace.handshakeWon →
      (stopRun ⟨ClientState.Running, true, false, some ⟨false, false⟩, true, false⟩
          true StopRace.handshakeWon).2.2 = StopResult.resolved ∧
      (stopRun ⟨ClientState.Running, true, false, some ⟨false, false⟩, true, false⟩
          true StopRace.handshakeWon).2.1 = some ⟨true, true⟩) ∧
    (StopRace.handshakeWon = StopRace.timeoutWon →
      (stopRun ⟨ClientState.Running, true, false, some ⟨false, false⟩, true, false⟩
          true StopRace.handshakeWon).2.2 =
        StopResult.rejected "Stopping the server timed out") ∧
    (∀ msg, StopRace.handshakeWon = StopRace.shutdownFailed msg →
      (stopRun ⟨ClientState.Running, true, false, some ⟨false, false⟩, true, false⟩
          true StopRace.handshakeWon).2.2 = StopResult.rejected msg) :=
  C5_stop_always_stopped_amended
    ⟨ClientState.Running, true, false, some ⟨false, false⟩, true, false⟩
    StopRace.handshakeWon (by decide) (by decide) (by decide)

/-- C2: publishing a second batch for the document currently being converted
cancels the in-flight token immediately; the first conversion completes
without delivering (the guard discards it), returning the queue to idle and
re-triggering a drain; the subsequent drain and completion deliver exactly
the result derived from the second publish. -/
theorem C2_latest_publish_wins (k : String) (d1 d2 : Nat) :
    (workDiagnosticQueue (handleDiagnostics initDiagState k d1)).busy =
      some ⟨k, 0, d1⟩ ∧
    (handleDiagnostics (workDiagnosticQueue (handleDiagnostics initDiagState k d1))
        k d2).cancelled = [0] ∧
    (handleDiagnostics (workDiagnosticQueue (handleDiagnostics initDiagState k d1))
        k d2).busy = some ⟨k, 0, d1⟩ ∧
    (completeConversion (handleDiagnostics
        (workDiagnosticQueue (handleDiagnostics initDiagState k d1)) k d2)).delivered =
      [] ∧
    (completeConversion (handleDiagnostics
        (workDiagnosticQueue (handleDiagnostics initDiagState k d1)) k d2)).busy =
      none ∧
    (completeConversion (handleDiagnostics
        (workDiagnosticQueue (handleDiagnostics initDiagState k d1)) k d2)).drainScheduled =
      true ∧
    (completeConversion (workDiagnosticQueue (completeConversion (handleDiagnostics
        (workDiagnosticQueue (handleDiagnostics initDiagState k d1)) k d2)))).delivered =
      [(k, d2)] := by
  simp [initDiagState, handleDiagnostics, workDiagnosticQueue, completeConversion,
    mapSet]

/-! ### C1: lemmas about the handler maps and the pre-start invariant -/

/-- Key list of a handler map. -/
def keysOf (m : HMap) : List String := m.map Prod.fst

/-- `mapHas` decides key membership. -/
lemma mapHas_iff (m : HMap) (k : String) : mapHas m k = true ↔ k ∈ keysOf m := by
  simp only [mapHas, keysOf, List.any_eq_true, List.mem_map, decide_eq_true_eq]

/-- Every entry of a map has its own key. -/
lemma self_has (m : HMap) : ∀ x ∈ m, mapHas m x.1 = true := by
  intro x hx
  simp only [mapHas, List.any_eq_true, decide_eq_true_eq]
  exact ⟨x, hx, rfl⟩

/-- Setting a present key leaves the key list unchanged. -/
lemma keysOf_mapSet_of_has (m : HMap) (k : String) (v : Nat)
    (h : m.any (fun p => p.1 = k) = true) : keysOf (mapSet m k v) = keysOf m := by
  simp only [mapSet, if_pos h, keysOf, List.map_map]
  apply List.map_congr_left
  intro p _
  by_cases hp : p.1 = k
  · simp [hp]
  · simp [hp]

/-- Setting an absent key appends it to the key list. -/
lemma keysOf_mapSet_of_not_has (m : HMap) (k : String) (v : Nat)
    (h : m.any (fun p => p.1 = k) = false) : keysOf (mapSet m k v) = keysOf m ++ [k] := by
  simp only [mapSet, h, Bool.false_eq_true, if_false, keysOf, List.map_append, List.map_cons,
    List.map_nil]

/-- Key lists stay duplicate-free under `mapSet`. -/
lemma keysNodup_mapSet (m : HMap) (k : String) (v : Nat)
    (h : (keysOf m).Nodup) : (keysOf (mapSet m k v)).Nodup := by
  by_cases hh : m.any (fun p => p.1 = k) = true
  · rw [keysOf_mapSet_of_has m k v hh]
    exact h
  · have hh' : m.any (fun p => p.1 = k) = false := by
      cases hb : m.any (fun p => p.1 = k)
      · rfl
      · exact absurd hb hh
    rw [keysOf_mapSet_of_not_has m k v hh']
    have hnot : k ∉ keysOf m := by
      intro hk
      exact hh ((mapHas_iff m k).mpr hk)
    simp [List.nodup_append, h, hnot]

/-- Key lists stay duplicate-free under `mapDelete`. -/
lemma keysNodup_mapDelete (m : HMap) (k : String)
    (h : (keysOf m).Nodup) : (keysOf (mapDelete m k)).Nodup := by
  have hsub : (keysOf (mapDelete m k)).Sublist (keysOf m) :=
    List.Sublist.map Prod.fst (List.filter_sublist m)
  exact List.Nodup.sublist hsub h

/-- Invariant of the registry before any connection exists: the pending maps
mirror the registered maps exactly, the registered key lists are
duplicate-free, and nothing has been bound to a connection yet. -/
def RegInv (s : ClientHandlers) : Prop :=
  s.pendingRequestHandlers = s.requestHandlers ∧
  s.pendingNotificationHandlers = s.notificationHandlers ∧
  (keysOf s.requestHandlers).Nodup ∧
  (keysOf s.notificationHandlers).Nodup ∧
  s.connRequestBound = [] ∧
  s.connNotificationBound = []

/-- The fresh client satisfies the invariant. -/
lemma regInv_init : RegInv initHandlers :=
  ⟨rfl, rfl, List.nodup_nil, List.nodup_nil, rfl, rfl⟩

/-- Every pre-start registry event preserves the invariant. -/
lemma regInv_step (s : ClientHandlers) (e : RegEvent) (h : RegInv s) :
    RegInv (applyRegEvent s e) := by
  obtain ⟨h1, h2, h3, h4, h5, h6⟩ := h
  cases e with
  | onRequestReg m hdl =>
      exact ⟨by simp [applyRegEvent, h1], by simp [applyRegEvent, h2],
        keysNodup_mapSet _ _ _ h3, h4, h5, h6⟩
  | onNotificationReg m hdl =>
      exact ⟨by simp [applyRegEvent, h1], by simp [applyRegEvent, h2],
        h3, keysNodup_mapSet _ _ _ h4, h5, h6⟩
  | disposeRequest m =>
      exact ⟨by simp [applyRegEvent, h1], by simp [applyRegEvent, h2],
        keysNodup_mapDelete _ _ h3, h4, h5, h6⟩
  | disposeNotification m =>
      exact ⟨by simp [applyRegEvent, h1], by simp [applyRegEvent, h2],
        h3, keysNodup_mapDelete _ _ h4, h5, h6⟩

/-- The invariant holds after any sequence of pre-start registry events. -/
lemma regInv_events (evs : List RegEvent) :
    ∀ s : ClientHandlers, RegInv s → RegInv (applyRegEvents s evs) := by
  induction evs with
  | nil => intro s h; exact h
  | cons e rest ih =>
      intro s h
      exact ih (applyRegEvent s e) (regInv_step s e h)

/-- The copy loop of `start()` is a no-op when every registered method is
already pending. -/
lemma mergeInto_eq_of_subset (handlers pending : HMap)
    (h : ∀ x ∈ handlers, mapHas pending x.1 = true) :
    mergeInto handlers pending = pending := by
  induction handlers with
  | nil => rfl
  | cons x t ih =>
      have hx : mapHas pending x.1 = true := h x (List.mem_cons_self x t)
      simp only [mergeInto, List.foldl_cons, if_pos hx]
      exact ih (fun y hy => h y (List.mem_cons_of_mem x hy))

/-- C1: after any sequence of pre-start registrations and disposals, `start()`
copies every registered handler into the pending maps (a no-op here since
registration already made them pending), and the initialize path binds every
registered, undisposed method to the connection exactly once — no method
twice, no registered method missing — and leaves the pending maps empty and
the registered maps untouched. -/
theorem C1_registered_methods_bound_exactly_once (evs : List RegEvent) (m : String) :
    ((startMerge (applyRegEvents initHandlers evs)).pendingRequestHandlers =
        (applyRegEvents initHandlers evs).requestHandlers ∧
     (startMerge (applyRegEvents initHandlers evs)).pendingNotificationHandlers =
        (applyRegEvents initHandlers evs).notificationHandlers) ∧
    (bindPending (startMerge (applyRegEvents initHandlers evs))).connRequestBound.count m =
      (if mapHas (applyRegEvents initHandlers evs).requestHandlers m then 1 else 0) ∧
    (bindPending (startMerge (applyRegEvents initHandlers evs))).connNotificationBound.count m =
      (if mapHas (applyRegEvents initHandlers evs).notificationHandlers m then 1 else 0) ∧
    (bindPending (startMerge (applyRegEvents initHandlers evs))).pendingRequestHandlers = [] ∧
    (bindPending (startMerge (applyRegEvents initHandlers evs))).pendingNotificationHandlers = [] ∧
    (bindPending (startMerge (applyRegEvents initHandlers evs))).requestHandlers =
      (applyRegEvents initHandlers evs).requestHandlers ∧
    (bindPending (startMerge (applyRegEvents initHandlers evs))).notificationHandlers =
      (applyRegEvents initHandlers evs).notificationHandlers := by
  obtain ⟨h1, h2, h3, h4, h5, h6⟩ := regInv_events evs initHandlers regInv_init
  set s := applyRegEvents initHandlers evs with hs
  have hm1 : (startMerge s).pendingRequestHandlers = s.requestHandlers := by
    show mergeInto s.requestHandlers s.pendingRequestHandlers = s.requestHandlers
    rw [h1]
    exact mergeInto_eq_of_subset _ _ (self_has _)
  have hm2 : (startMerge s).pendingNotificationHandlers = s.notificationHandlers := by
    show mergeInto s.notificationHandlers s.pendingNotificationHandlers = s.notificationHandlers
    rw [h2]
    exact mergeInto_eq_of_subset _ _ (self_has _)
  have hb1 : (bindPending (startMerge s)).connRequestBound = keysOf s.requestHandlers := by
    show (startMerge s).connRequestBound ++
        (startMerge s).pendingRequestHandlers.map (fun p => p.1) = keysOf s.requestHandlers
    have hcb : (startMerge s).connRequestBound = s.connRequestBound := rfl
    rw [hcb, h5, hm1, List.nil_append]
    rfl
  have hb2 : (bindPending (startMerge s)).connNotificationBound =
      keysOf s.notificationHandlers := by
    show (startMerge s).connNotificationBound ++
        (startMerge s).pendingNotificationHandlers.map (fun p => p.1) =
      keysOf s.notificationHandlers
    have hcb : (startMerge s).connNotificationBound = s.connNotificationBound := rfl
    rw [hcb, h6, hm2, List.nil_append]
    rfl
  refine ⟨⟨hm1, hm2⟩, ?_, ?_, rfl, rfl, rfl, rfl⟩
  · rw [hb1]
    by_cases hmem : mapHas s.requestHandlers m = true
    · rw [if_pos hmem]
      exact List.count_eq_one_of_mem h3 ((mapHas_iff _ _).mp hmem)
    · rw [if_neg hmem]
      exact List.count_eq_zero.mpr (fun hk => hmem ((mapHas_iff _ _).mpr hk))
  · rw [hb2]
    by_cases hmem : mapHas s.notificationHandlers m = true
    · rw [if_pos hmem]
      exact List.count_eq_one_of_mem h4 ((mapHas_iff _ _).mp hmem)
    · rw [if_neg hmem]
      exact List.count_eq_zero.mpr (fun hk => hmem ((mapHas_iff _ _).mpr hk))
